import Mathlib

/-!
Verification development for the Image-Resizer application (src/app.py).

The two cores modelled here, by shallow embedding, are:
* the voice-command interpreter (`parse_voice_command`, `words_to_number`,
  `remove_by_voice`): the utterance arrives already lower-cased from the
  speech collaborator, so `text.lower()` is the identity on our inputs;
* the resize & page-layout engine (`process`, `generate_a4_pdf`):
  Python float arithmetic is modelled over `ℚ` and Python `int()`
  (truncation toward zero) as `pyTrunc`.
-/

/-! ## Number-word table and keyword sets (src/app.py lines 25-44) -/

def NUMBER_WORDS : List (String × ℕ) :=
  [("zero", 0), ("one", 1), ("two", 2), ("three", 3), ("four", 4),
   ("five", 5), ("six", 6), ("seven", 7), ("eight", 8), ("nine", 9),
   ("ten", 10), ("eleven", 11), ("twelve", 12), ("thirteen", 13),
   ("fourteen", 14), ("fifteen", 15), ("sixteen", 16),
   ("seventeen", 17), ("eighteen", 18), ("nineteen", 19),
   ("twenty", 20), ("thirty", 30), ("forty", 40), ("fifty", 50)]

def width_keywords : List String :=
  ["width", "wide", "with", "breadth", "horizontal", "w"]

def height_keywords : List String :=
  ["height", "high", "tall", "vertical", "h"]

def start_keywords : List String :=
  ["start", "process", "convert", "resize", "go", "run"]

def apply_all_keywords : List String :=
  ["apply all", "every image", "select all"]

def ratio_keywords : List String :=
  ["ratio", "keep ratio", "aspect", "maintain ratio"]

def remove_keywords : List String :=
  ["remove", "delete", "erase", "discard", "remove all"]

def pdf_keywords : List String :=
  ["pdf", "document", "export pdf", "a4"]

def add_image_keywords : List String :=
  ["image", "add image", "load image", "single image"]

def add_folder_keywords : List String :=
  ["folder", "add folder", "load folder"]

def end_keywords : List String :=
  ["stop listening", "exit"]

/-! ## Substring containment (Python's `k in text`) -/

/-- `isPrefOf k l` : the char list `k` is a prefix of `l`. -/
def isPrefOf : List Char → List Char → Bool
  | [], _ => true
  | _ :: _, [] => false
  | a :: as, b :: bs => a == b && isPrefOf as bs

/-- `hasSub k l` : the char list `k` occurs contiguously inside `l`,
modelling Python's `k in l` on strings. -/
def hasSub (k : List Char) : List Char → Bool
  | [] => isPrefOf k []
  | c :: ts => isPrefOf k (c :: ts) || hasSub k ts

/-- Python's `k in t` substring test on strings. -/
def strContains (t k : String) : Bool := hasSub k.toList t.toList

/-- Python's `any(k in text for k in kws)`. -/
def anyKw (kws : List String) (t : String) : Bool :=
  kws.any (fun k => strContains t k)

/-! ## Numeric extraction (src/app.py lines 46-51 and 607-611) -/

/-- Value of a run of decimal digit characters, most significant first. -/
def natOfDigits (ds : List Char) : ℕ :=
  ds.foldl (fun a c => 10 * a + (c.toNat - 48)) 0

/-- Value of the leftmost regex match of `\d+\.?\d*` starting at the head
of `l` (the head is known to be a digit): greedy integer digits, an
optional single dot, then greedy fraction digits. -/
def decOfRun (l : List Char) : ℚ :=
  match l.dropWhile Char.isDigit with
  | '.' :: r2 =>
      (natOfDigits (l.takeWhile Char.isDigit) : ℚ) +
        (natOfDigits (r2.takeWhile Char.isDigit) : ℚ) /
          (10 ^ (r2.takeWhile Char.isDigit).length)
  | _ => (natOfDigits (l.takeWhile Char.isDigit) : ℚ)

/-- `float(re.findall(r"\d+\.?\d*", text)[0])` when a match exists:
the first decimal literal scanning left to right. -/
def firstDecimal : List Char → Option ℚ
  | [] => none
  | c :: cs => if c.isDigit then some (decOfRun (c :: cs)) else firstDecimal cs

/-- Python `text.split()`: split a char list into maximal runs of
non-whitespace characters, dropping empty tokens. `cur` accumulates the
current token in reverse. -/
def splitWsAux : List Char → List Char → List (List Char)
  | [], cur => if cur.isEmpty then [] else [cur.reverse]
  | c :: cs, cur =>
      if c.isWhitespace then
        if cur.isEmpty then splitWsAux cs [] else cur.reverse :: splitWsAux cs []
      else splitWsAux cs (c :: cur)

/-- Python `text.split()` on a string. -/
def pySplit (t : String) : List String :=
  (splitWsAux t.toList []).map (fun l => String.mk l)

/-- The sum over all whitespace-separated tokens of their `NUMBER_WORDS`
value (unrecognized tokens contribute 0) — the `total` accumulated by
`words_to_number`. -/
def wordSum (t : String) : ℕ :=
  (pySplit t).foldl (fun a w => a + ((NUMBER_WORDS.lookup w).getD 0)) 0

/-- `words_to_number` (src/app.py lines 46-51): returns the sum of all
recognized number-words, or `None` when that sum is not positive. -/
def words_to_number (t : String) : Option ℕ :=
  if 0 < wordSum t then some (wordSum t) else none

/-- The numeric value extracted at the top of `parse_voice_command`
(lines 607-611): first decimal literal, else the number-word sum. -/
def extractValue (t : String) : Option ℚ :=
  match firstDecimal t.toList with
  | some v => some v
  | none => (words_to_number t).map (fun n => (n : ℚ))

/-! ## Python `int()` truncation and the str→int parse of `remove_by_voice` -/

/-- Python `int()` applied to a rational: truncation toward zero. -/
def pyTrunc (q : ℚ) : ℤ := if 0 ≤ q then ⌊q⌋ else -⌊-q⌋

/-- Parse a nonempty all-digit char list as a natural number. -/
def parseDigitsOpt (l : List Char) : Option ℕ :=
  if l.isEmpty then none
  else if l.all Char.isDigit then some (natOfDigits l) else none

/-- Python `int(s)` on a string: optional sign then digits, `none` when
the call would raise `ValueError`. -/
def parseIntStr (l : List Char) : Option ℤ :=
  match l with
  | '-' :: rest => (parseDigitsOpt rest).map (fun n => -(n : ℤ))
  | '+' :: rest => (parseDigitsOpt rest).map (fun n => (n : ℤ))
  | _ => (parseDigitsOpt l).map (fun n => (n : ℤ))

/-! ## The interpreter (src/app.py `parse_voice_command`, lines 603-680) -/

inductive Axis
  | width
  | height
deriving DecidableEq, Repr

/-- The observable command emitted by one interpreter step. `nop` marks
branches that emit no signal (pending-axis update only, toggles aside). -/
inductive Command
  | setDimension (a : Axis) (v : ℚ)
  | triggerStart
  | toggleApplyAll
  | toggleRatioLock
  | togglePdfMode
  | removeAll
  | removeIndex (n : ℤ)
  | removeCurrent
  | triggerAddFolder
  | triggerAddImage
  | stopListening
  | nop
deriving DecidableEq, Repr

/-- Intent label of the branch taken by the `if/elif` cascade. -/
inductive Intent
  | widthI
  | heightI
  | startI
  | applyAllI
  | ratioI
  | pdfI
  | removeI
  | addFolderI
  | addImageI
  | stopI
  | noneI
deriving DecidableEq, Repr

/-- The `if/elif` keyword cascade of `parse_voice_command`, in source
order (lines 614-671). -/
def classify (t : String) : Intent :=
  if anyKw width_keywords t then .widthI
  else if anyKw height_keywords t then .heightI
  else if anyKw start_keywords t then .startI
  else if anyKw apply_all_keywords t then .applyAllI
  else if anyKw ratio_keywords t then .ratioI
  else if anyKw pdf_keywords t then .pdfI
  else if anyKw remove_keywords t then .removeI
  else if anyKw add_folder_keywords t then .addFolderI
  else if anyKw add_image_keywords t then .addImageI
  else if anyKw end_keywords t then .stopI
  else .noneI

/-- Spec-side: an ordered list of (keyword set, intent) rules. -/
def ruleOrder : List (List String × Intent) :=
  [(width_keywords, .widthI), (height_keywords, .heightI),
   (start_keywords, .startI), (apply_all_keywords, .applyAllI),
   (ratio_keywords, .ratioI), (pdf_keywords, .pdfI),
   (remove_keywords, .removeI), (add_folder_keywords, .addFolderI),
   (add_image_keywords, .addImageI), (end_keywords, .stopI)]

/-- Spec-side: resolve to the first rule whose keyword set matches. -/
def firstMatch (t : String) : List (List String × Intent) → Intent
  | [] => .noneI
  | r :: rest => if anyKw r.1 t then r.2 else firstMatch t rest

/-- One step of `parse_voice_command`: from the (already lower-cased)
utterance and the pending axis (`last_voice_cmd`) to the emitted command
and the new pending axis. -/
def interpret (t : String) (pending : Option Axis) : Command × Option Axis :=
  match classify t with
  | .widthI =>
      match extractValue t with
      | some v => (.setDimension .width v, none)
      | none => (.nop, some .width)
  | .heightI =>
      match extractValue t with
      | some v => (.setDimension .height v, none)
      | none => (.nop, some .height)
  | .startI => (.triggerStart, none)
  | .applyAllI => (.toggleApplyAll, pending)
  | .ratioI => (.toggleRatioLock, pending)
  | .pdfI => (.togglePdfMode, pending)
  | .removeI =>
      if strContains t "all" then (.removeAll, none)
      else
        match extractValue t with
        | some v => (.removeIndex (pyTrunc v), none)
        | none => (.removeCurrent, none)
  | .addFolderI => (.triggerAddFolder, pending)
  | .addImageI => (.triggerAddImage, pending)
  | .stopI => (.stopListening, pending)
  | .noneI =>
      match extractValue t, pending with
      | some v, some a => (.setDimension a v, none)
      | some _, none => (.nop, pending)
      | none, _ => (.nop, pending)

/-- Token test: `w` occurs as a whitespace-separated token of `t`. -/
def hasToken (t w : String) : Bool :=
  (pySplit t).any (fun x => x == w)

/-! ## remove_by_voice (src/app.py lines 556-601) -/

inductive RemoveAction
  | removeAll
  | removeAt (i : ℕ)
  | removeCurrent
  | noop
deriving DecidableEq, Repr

/-- The in-range check `0 <= index < count` of the `try` branch, with
`index = n - 1`. -/
def removeIndexAction (n : ℤ) (count : ℕ) : RemoveAction :=
  if 0 ≤ n - 1 ∧ n - 1 < (count : ℤ) then .removeAt (n - 1).toNat else .noop

/-- `remove_by_voice(param)` over a list of `count` entries, with or
without a current selection: `"all"` clears; a parsed in-range 1-based
index removes that entry; a parsed out-of-range index silently does
nothing; a parse failure removes the current selection when one exists. -/
def remove_by_voice (param : String) (count : ℕ) (hasCurrent : Bool) :
    RemoveAction :=
  if param = "all" then .removeAll
  else
    match parseIntStr param.toList with
    | some n => removeIndexAction n count
    | none => if hasCurrent then .removeCurrent else .noop

/-! ## A4 shelf-packing layout (src/app.py `generate_a4_pdf`, lines 743-780) -/

def PAGE_W : ℚ := 210
def PAGE_H : ℚ := 297
def MARGIN : ℚ := 10
def GAP : ℚ := 2

/-- A placed image: page index and origin/size in millimetres. -/
structure Placed where
  page : ℕ
  x : ℚ
  y : ℚ
  w : ℚ
  h : ℚ
deriving DecidableEq, Repr

/-- The cursor state of the shelf packer. -/
structure LayoutSt where
  page : ℕ
  x : ℚ
  y : ℚ
  rowMax : ℚ
deriving DecidableEq, Repr

/-- Row wrap: `if x + w_mm > PAGE_W - MARGIN` (line 763). -/
def wrapRow (s : LayoutSt) (wMm : ℚ) : LayoutSt :=
  if s.x + wMm > PAGE_W - MARGIN then
    { s with x := MARGIN, y := s.y + s.rowMax + GAP, rowMax := 0 }
  else s

/-- Page wrap: `if y + h_mm > PAGE_H - MARGIN` (line 769). -/
def wrapPage (s : LayoutSt) (hMm : ℚ) : LayoutSt :=
  if s.y + hMm > PAGE_H - MARGIN then
    { page := s.page + 1, x := MARGIN, y := MARGIN, rowMax := 0 }
  else s

/-- Place one image of size `wMm × hMm`: wrap the row, then possibly the
page, emit the placement at the cursor, then advance the cursor. -/
def placeStep (s : LayoutSt) (wMm hMm : ℚ) : LayoutSt × Placed :=
  ({ wrapPage (wrapRow s wMm) hMm with
      x := (wrapPage (wrapRow s wMm) hMm).x + wMm + GAP,
      rowMax := max (wrapPage (wrapRow s wMm) hMm).rowMax hMm },
   { page := (wrapPage (wrapRow s wMm) hMm).page,
     x := (wrapPage (wrapRow s wMm) hMm).x,
     y := (wrapPage (wrapRow s wMm) hMm).y,
     w := wMm, h := hMm })

/-- Fold the packer over the entries (sizes already in millimetres). -/
def layoutAux : LayoutSt → List (ℚ × ℚ) → List Placed
  | _, [] => []
  | s, q :: rest =>
      (placeStep s q.1 q.2).2 :: layoutAux (placeStep s q.1 q.2).1 rest

/-- `generate_a4_pdf`: the images arrive as `(w_cm, h_cm)` pairs, are
converted to millimetres (`w_mm = w_cm * 10`), and shelf-packed in order
starting from the margin cursor on page 0. -/
def generate_a4_pdf (images_info : List (ℚ × ℚ)) : List Placed :=
  layoutAux { page := 0, x := MARGIN, y := MARGIN, rowMax := 0 }
    (images_info.map (fun q => (q.1 * 10, q.2 * 10)))

/-! ## The batch resize run (src/app.py `process`, lines 782-843) -/

/-- `int((cm / 2.54) * dpi)` with `dpi = 300` (lines 804-808):
`2.54 = 127/50`. One axis of the per-entry pixel conversion. -/
def cmToPx (cm : ℚ) : ℤ := pyTrunc (cm / (127 / 50) * 300)

/-- One loaded entry of a batch run. `loadable` abstracts whether
`Image.open`/`resize`/`save` succeeds for this source file. -/
structure BatchEntry where
  name : String
  widthCm : ℚ
  heightCm : ℚ
  loadable : Bool
deriving DecidableEq, Repr

/-- The per-entry loop of `process` (lines 801-825): `i` is the
enumeration index, `total` the batch-start entry count. A loadable entry
contributes its `(path, w_cm, h_cm)` record for the PDF and one progress
update `int((i + 1) / total * 100)`; a failing entry is caught, skipped,
and contributes neither. -/
def processAux (total : ℕ) : ℕ → List BatchEntry → List (String × ℚ × ℚ) × List ℕ
  | _, [] => ([], [])
  | i, e :: rest =>
      if e.loadable then
        ((e.name, e.widthCm, e.heightCm) :: (processAux total (i + 1) rest).1,
          ((i + 1) * 100 / total) :: (processAux total (i + 1) rest).2)
      else processAux total (i + 1) rest

/-- `process` (lines 782-825): aborts (`none`) when no images are loaded
or when the output directory cannot be created; otherwise runs the whole
batch best-effort and returns the PDF data list and the progress-update
sequence. -/
def process (dirOk : Bool) (entries : List BatchEntry) :
    Option (List (String × ℚ × ℚ) × List ℕ) :=
  if entries.isEmpty then none
  else if dirOk then some (processAux entries.length 0 entries)
  else none

/-! ## Helper lemmas -/

/-- The three-entry `100mm × 60mm` layout, evaluated: the printable width
is `190mm`, so no two `100mm` images share a row and each entry opens its
own row. -/
lemma layout_three_100x60 :
    generate_a4_pdf [(10, 6), (10, 6), (10, 6)] =
      [⟨0, 10, 10, 100, 60⟩, ⟨0, 10, 72, 100, 60⟩, ⟨0, 10, 134, 100, 60⟩] := by
  norm_num [generate_a4_pdf, layoutAux, placeStep, wrapRow, wrapPage,
    PAGE_W, PAGE_H, MARGIN, GAP]

/-- After the row-wrap check, the cursor invariant holds and either the
image fits the current row or the cursor is back at the left margin. -/
lemma wrapRow_inv (s : LayoutSt) (w : ℚ)
    (hx : 10 ≤ s.x) (hy : 10 ≤ s.y) (hr : 0 ≤ s.rowMax) :
    10 ≤ (wrapRow s w).x ∧ 10 ≤ (wrapRow s w).y ∧ 0 ≤ (wrapRow s w).rowMax ∧
      ((wrapRow s w).x + w ≤ 200 ∨ (wrapRow s w).x = 10) := by
  rw [wrapRow]
  split_ifs with h1
  · exact ⟨le_refl 10, by simp [MARGIN, GAP]; linarith, by simp, Or.inr (by simp [MARGIN])⟩
  · exact ⟨hx, hy, hr, Or.inl (by simp only [PAGE_W, MARGIN] at h1; linarith)⟩

/-- After the page-wrap check, the cursor invariant holds, either the
image fits the page vertically or the cursor is at the top margin, and
the x cursor is unchanged or reset to the margin. -/
lemma wrapPage_inv (s : LayoutSt) (h : ℚ)
    (hx : 10 ≤ s.x) (hy : 10 ≤ s.y) (hr : 0 ≤ s.rowMax) :
    10 ≤ (wrapPage s h).x ∧ 10 ≤ (wrapPage s h).y ∧ 0 ≤ (wrapPage s h).rowMax ∧
      ((wrapPage s h).y + h ≤ 287 ∨ (wrapPage s h).y = 10) ∧
      ((wrapPage s h).x = s.x ∨ (wrapPage s h).x = 10) := by
  rw [wrapPage]
  split_ifs with h1
  · exact ⟨by simp [MARGIN], by simp [MARGIN], by simp, Or.inr (by simp [MARGIN]),
      Or.inr (by simp [MARGIN])⟩
  · exact ⟨hx, hy, hr, Or.inl (by simp only [PAGE_H, MARGIN] at h1; linarith), Or.inl rfl⟩

/-- `placeStep` preserves the cursor invariant and, for an image that fits
the printable area, places it inside the margins. -/
lemma placeStep_inv (s : LayoutSt) (w h : ℚ)
    (hx : 10 ≤ s.x) (hy : 10 ≤ s.y) (hr : 0 ≤ s.rowMax)
    (hw0 : 0 < w) (hh0 : 0 < h) (hwB : w ≤ 190) (hhB : h ≤ 277) :
    (10 ≤ (placeStep s w h).1.x ∧ 10 ≤ (placeStep s w h).1.y ∧
      0 ≤ (placeStep s w h).1.rowMax) ∧
    (10 ≤ (placeStep s w h).2.x ∧ (placeStep s w h).2.x + (placeStep s w h).2.w ≤ 200 ∧
      10 ≤ (placeStep s w h).2.y ∧ (placeStep s w h).2.y + (placeStep s w h).2.h ≤ 287) := by
  obtain ⟨hx1, hy1, hr1, hfit1⟩ := wrapRow_inv s w hx hy hr
  obtain ⟨hx2, hy2, hr2, hfit2, hxeq⟩ := wrapPage_inv (wrapRow s w) h hx1 hy1 hr1
  have hxw : (wrapPage (wrapRow s w) h).x + w ≤ 200 := by
    rcases hxeq with he | he
    · rcases hfit1 with hf | hf
      · rw [he]; exact hf
      · rw [he, hf]; linarith
    · rw [he]; linarith
  have hyh : (wrapPage (wrapRow s w) h).y + h ≤ 287 := by
    rcases hfit2 with hf | hf
    · exact hf
    · rw [hf]; linarith
  simp only [placeStep, GAP]
  exact ⟨⟨by linarith, hy2, le_max_of_le_right hh0.le⟩, hx2, hxw, hy2, hyh⟩

/-- Every placement produced from a cursor satisfying the invariant, for
entries that individually fit the printable area, lies inside the
margins. -/
lemma layoutAux_bounds (items : List (ℚ × ℚ)) :
    ∀ s : LayoutSt, 10 ≤ s.x → 10 ≤ s.y → 0 ≤ s.rowMax →
      (∀ q ∈ items, 0 < q.1 ∧ 0 < q.2 ∧ q.1 ≤ 190 ∧ q.2 ≤ 277) →
      ∀ p ∈ layoutAux s items,
        10 ≤ p.x ∧ p.x + p.w ≤ 200 ∧ 10 ≤ p.y ∧ p.y + p.h ≤ 287 := by
  induction items with
  | nil => intro s _ _ _ _ p hp; simp [layoutAux] at hp
  | cons q rest ih =>
    intro s hx hy hr hall p hp
    obtain ⟨hq1, hq2, hq3, hq4⟩ := hall q (List.mem_cons_self q rest)
    have hps := placeStep_inv s q.1 q.2 hx hy hr hq1 hq2 hq3 hq4
    rw [layoutAux] at hp
    rcases List.mem_cons.mp hp with hhead | htail
    · rw [hhead]; exact hps.2
    · exact ih (placeStep s q.1 q.2).1 hps.1.1 hps.1.2.1 hps.1.2.2
        (fun r hrm => hall r (List.mem_cons_of_mem q hrm)) p htail

/-- `hasSub` with a single-character needle is an element test. -/
lemma hasSub_singleton (c : Char) :
    ∀ l : List Char, hasSub [c] l = l.any (fun d => c == d) := by
  intro l
  induction l with
  | nil => rfl
  | cons b ts ih => simp [hasSub, isPrefOf, ih]

/-- An utterance containing the character `w` matches the width keyword
set (its last keyword is the single letter `"w"`), so the cascade
classifies it as width intent. -/
lemma classify_width_of_w (t : String) (hw : 'w' ∈ t.toList) :
    classify t = Intent.widthI := by
  have hCont : strContains t "w" = true := by
    show hasSub ("w".toList) t.toList = true
    rw [show ("w".toList) = ['w'] from rfl, hasSub_singleton]
    rw [List.any_eq_true]
    exact ⟨'w', hw, by simp⟩
  have h2 : anyKw width_keywords t = true := by
    rw [anyKw, List.any_eq_true]
    exact ⟨"w", by simp [width_keywords], hCont⟩
  rw [classify, if_pos h2]

/-- Closed form of the batch loop: outputs are the loadable entries in
order, and the progress updates occur exactly at the loadable entries,
each with the fixed denominator `total`. -/
lemma processAux_eq (total : ℕ) :
    ∀ (i : ℕ) (l : List BatchEntry),
      processAux total i l =
        ((l.filter (fun e => e.loadable)).map (fun e => (e.name, e.widthCm, e.heightCm)),
          ((List.enumFrom i l).filter (fun p => p.2.loadable)).map
            (fun p => (p.1 + 1) * 100 / total)) := by
  intro i l
  induction l generalizing i with
  | nil => rfl
  | cons e rest ih =>
    by_cases he : e.loadable <;>
      simp [processAux, he, ih, List.enumFrom, List.filter_cons]

/-! ## Claims -/

/-- C1 (counterexample): for three `100mm × 60mm` entries the packing is
NOT `(10,10), (112,10), (10,72)` as the claim states — a second `100mm`
image cannot share the row (`112 + 100 = 212 > 200 = PAGE_W - MARGIN`),
so the second entry already wraps to `(10, 72)`. -/
theorem C1_layout_counterexample :
    generate_a4_pdf [(10, 6), (10, 6), (10, 6)] ≠
      [⟨0, 10, 10, 100, 60⟩, ⟨0, 112, 10, 100, 60⟩, ⟨0, 10, 72, 100, 60⟩] ∧
    (generate_a4_pdf [(10, 6), (10, 6), (10, 6)]).get? 1 = some ⟨0, 10, 72, 100, 60⟩ := by
  rw [layout_three_100x60]
  exact ⟨by decide, by decide⟩

/-- C1 (amended): three `100mm × 60mm` entries (margin 10, gap 2) are
packed in insertion order one per row: the first at `(10,10)`, the second
wraps to `(10,72)`, the third wraps to `(10,134)`, all on page 0. -/
theorem C1_layout_rows :
    generate_a4_pdf [(10, 6), (10, 6), (10, 6)] =
      [⟨0, 10, 10, 100, 60⟩, ⟨0, 10, 72, 100, 60⟩, ⟨0, 10, 134, 100, 60⟩] :=
  layout_three_100x60

/-- C2 (counterexample): the code truncates with `int()`, it does not
round: at `widthCm = 0.99` the exact value is `14850/127 ≈ 116.93`, the
code produces `116` while `round` gives `117`. -/
theorem C2_pixel_counterexample :
    cmToPx (99 / 100) ≠ round (((99 : ℚ) / 100) / (127 / 50) * 300) ∧
    cmToPx (99 / 100) = 116 ∧
    round (((99 : ℚ) / 100) / (127 / 50) * 300) = 117 := by
  have h1 : cmToPx (99 / 100) = 116 := by norm_num [cmToPx, pyTrunc]
  have h2 : round (((99 : ℚ) / 100) / (127 / 50) * 300) = 117 := by
    rw [round_eq]; norm_num
  exact ⟨by rw [h1, h2]; decide, h1, h2⟩

/-- C2 (amended): for every nonnegative `cm` the target pixel count is
`⌊cm / 2.54 * 300⌋` (truncation); it agrees with `round` exactly when the
fractional part of `cm / 2.54 * 300` is below one half; and
`widthCm = 10.0` still yields `1181`. -/
theorem C2_pixel_trunc (cm : ℚ) (hcm : 0 ≤ cm) :
    cmToPx cm = ⌊cm / (127 / 50) * 300⌋ ∧
    (cmToPx cm = round (cm / (127 / 50) * 300) ↔
      Int.fract (cm / (127 / 50) * 300) < 1 / 2) ∧
    cmToPx 10 = 1181 := by
  have hq : (0 : ℚ) ≤ cm / (127 / 50) * 300 := by positivity
  have hfl : cmToPx cm = ⌊cm / (127 / 50) * 300⌋ := by
    rw [cmToPx, pyTrunc, if_pos hq]
  refine ⟨hfl, ?_, by norm_num [cmToPx, pyTrunc]⟩
  rw [hfl, round_eq]
  have hle : (⌊cm / (127 / 50) * 300⌋ : ℚ) ≤ cm / (127 / 50) * 300 :=
    Int.floor_le _
  have hlt : cm / (127 / 50) * 300 < ⌊cm / (127 / 50) * 300⌋ + 1 :=
    Int.lt_floor_add_one _
  have hfr : Int.fract (cm / (127 / 50) * 300) =
      cm / (127 / 50) * 300 - ⌊cm / (127 / 50) * 300⌋ :=
    (Int.self_sub_floor _).symm
  constructor
  · intro he
    have h1 : cm / (127 / 50) * 300 + 1 / 2 <
        (⌊cm / (127 / 50) * 300 + 1 / 2⌋ : ℚ) + 1 := Int.lt_floor_add_one _
    rw [← he] at h1
    rw [hfr]
    linarith
  · intro hf
    rw [hfr] at hf
    symm
    rw [Int.floor_eq_iff]
    constructor
    · linarith
    · linarith

/-- C2 (witness): the amended theorem applied at `cm = 10`. -/
theorem C2_pixel_trunc_witness :
    (0 : ℚ) ≤ 10 ∧ cmToPx 10 = 1181 :=
  ⟨by norm_num, (C2_pixel_trunc 10 (by norm_num)).2.2⟩

/-- C3 (counterexample): a single positively-sized entry of `200mm ×
100mm` fires the (vacuous) row wrap (`10 + 200 > 200`), lands at
`(10, 12)`, and its right edge `10 + 200 = 210` exceeds the printable
limit `200`: the claimed invariant fails with only positivity assumed. -/
theorem C3_printable_counterexample :
    (0 : ℚ) < 20 ∧ (0 : ℚ) < 10 ∧
    generate_a4_pdf [(20, 10)] = [⟨0, 10, 12, 200, 100⟩] ∧
    ¬ (∀ p ∈ generate_a4_pdf [((20 : ℚ), (10 : ℚ))],
        10 ≤ p.x ∧ p.x + p.w ≤ 200 ∧ 10 ≤ p.y ∧ p.y + p.h ≤ 287) := by
  have hval : generate_a4_pdf [((20 : ℚ), (10 : ℚ))] = [⟨0, 10, 12, 200, 100⟩] := by
    norm_num [generate_a4_pdf, layoutAux, placeStep, wrapRow, wrapPage,
      PAGE_W, PAGE_H, MARGIN, GAP]
  refine ⟨by norm_num, by norm_num, hval, ?_⟩
  rw [hval]
  intro hall
  obtain ⟨-, habs, -, -⟩ := hall ⟨0, 10, 12, 200, 100⟩ (List.mem_singleton.mpr rfl)
  norm_num at habs

/-- C3 (amended): for every input list of entries with positive cm sizes
that each fit the printable area (`w ≤ 19cm`, `h ≤ 27.7cm`), every
`PlacedImage` produced by the layout lies entirely within the
margin-inset rectangle `[10, 200] × [10, 287]` mm of the A4 page. -/
theorem C3_printable_invariant (items : List (ℚ × ℚ))
    (h : ∀ q ∈ items, 0 < q.1 ∧ 0 < q.2 ∧ q.1 * 10 ≤ 190 ∧ q.2 * 10 ≤ 277) :
    ∀ p ∈ generate_a4_pdf items,
      10 ≤ p.x ∧ p.x + p.w ≤ 200 ∧ 10 ≤ p.y ∧ p.y + p.h ≤ 287 := by
  intro p hp
  rw [generate_a4_pdf] at hp
  refine layoutAux_bounds (items.map fun q => (q.1 * 10, q.2 * 10))
    { page := 0, x := MARGIN, y := MARGIN, rowMax := 0 }
    (by norm_num [MARGIN]) (by norm_num [MARGIN]) (by norm_num) ?_ p hp
  intro q hq
  obtain ⟨r, hr, rfl⟩ := List.mem_map.mp hq
  obtain ⟨h1, h2, h3, h4⟩ := h r hr
  exact ⟨by simpa using mul_pos h1 (by norm_num : (0:ℚ) < 10),
    by simpa using mul_pos h2 (by norm_num : (0:ℚ) < 10), h3, h4⟩

/-- C3 (witness): the amended theorem applied to a single `10cm × 6cm`
entry. -/
theorem C3_printable_invariant_witness :
    (∀ q ∈ [((10 : ℚ), (6 : ℚ))], 0 < q.1 ∧ 0 < q.2 ∧ q.1 * 10 ≤ 190 ∧ q.2 * 10 ≤ 277) ∧
    ∀ p ∈ generate_a4_pdf [((10 : ℚ), (6 : ℚ))],
      10 ≤ p.x ∧ p.x + p.w ≤ 200 ∧ 10 ≤ p.y ∧ p.y + p.h ≤ 287 :=
  ⟨by intro q hq; rw [List.mem_singleton.mp hq]; norm_num,
   C3_printable_invariant [((10 : ℚ), (6 : ℚ))]
     (by intro q hq; rw [List.mem_singleton.mp hq]; norm_num)⟩

/-- C4 (counterexample): "width go remove" contains a start keyword
("go") and a remove keyword ("remove"), yet resolves to width intent, not
start — the "in particular" consequence fails whenever an earlier keyword
set also matches. -/
theorem C4_priority_counterexample :
    anyKw start_keywords "width go remove" = true ∧
    anyKw remove_keywords "width go remove" = true ∧
    classify "width go remove" = Intent.widthI ∧
    Intent.widthI ≠ Intent.startI := by
  refine ⟨by decide, by decide, by decide, by decide⟩

/-- C4 (amended): the cascade resolves every utterance to the first
keyword set, in the fixed priority order width, height, start, apply-all,
ratio, pdf, remove, add-folder, add-image, stop, that has any keyword
present as a substring; consequently an utterance containing a start
keyword and a remove keyword, but no width or height keyword, resolves to
start. -/
theorem C4_priority_order (t : String) :
    classify t = firstMatch t ruleOrder ∧
    (anyKw start_keywords t = true → anyKw width_keywords t = false →
      anyKw height_keywords t = false → classify t = Intent.startI) := by
  refine ⟨rfl, fun hs hw hh => ?_⟩
  rw [classify, hw, hh, hs]
  rfl

/-- C4 (witness): "go delete" contains a start keyword and a remove
keyword and no width/height keyword, and resolves to start. -/
theorem C4_priority_order_witness :
    anyKw start_keywords "go delete" = true ∧
    anyKw remove_keywords "go delete" = true ∧
    classify "go delete" = Intent.startI :=
  ⟨by decide, by decide,
    (C4_priority_order "go delete").2 (by decide) (by decide) (by decide)⟩

/-- C5 (counterexample): "erase ball" reaches the remove branch with no
token "all" and no numeric value, yet the emitted command is
`Remove(All)` — the code tests `"all" in text` as a substring ("ball"
contains "all"), not as a token. -/
theorem C5_remove_counterexample :
    hasToken "erase ball" "all" = false ∧
    extractValue "erase ball" = none ∧
    (interpret "erase ball" none).1 = Command.removeAll ∧
    Command.removeAll ≠ Command.removeCurrent := by
  refine ⟨by decide, by decide, by decide, by decide⟩

/-- C5 (amended): for every utterance classified to the remove branch,
the command is `Remove(All)` when "all" occurs as a substring (not
token), else `Remove(Index(int(value)))` when a numeric value was
extracted, else `Remove(Current)`; and a 1-based in-range index `k + 1`
removes the entry at 0-based position `k`, matching the list display
numbering `k + 1`. -/
theorem C5_remove_dispatch (t : String) (p : Option Axis)
    (h : classify t = Intent.removeI) :
    interpret t p =
      (if strContains t "all" then (Command.removeAll, (none : Option Axis))
        else
          match extractValue t with
          | some v => (Command.removeIndex (pyTrunc v), none)
          | none => (Command.removeCurrent, none)) ∧
    (∀ k count : ℕ, k < count →
      removeIndexAction ((k : ℤ) + 1) count = RemoveAction.removeAt k) := by
  constructor
  · simp only [interpret, h]
  · intro k count hk
    rw [removeIndexAction, if_pos ⟨by omega, by omega⟩]
    congr 1
    omega

/-- C5 (witness): "delete 2" is a remove utterance with value 2 and no
"all" substring, so the emitted command is `Remove(Index 2)`. -/
theorem C5_remove_dispatch_witness :
    classify "delete 2" = Intent.removeI ∧
    interpret "delete 2" none = (Command.removeIndex 2, none) := by
  refine ⟨by decide, ?_⟩
  rw [(C5_remove_dispatch "delete 2" none (by decide)).1]
  decide

/-- C6 (counterexample): a parsed but out-of-range index parameter ("5"
over a 3-entry list, or "0", whose 0-based index is -1) is a silent
no-op, NOT a fallback to removing the current entry. -/
theorem C6_fallback_counterexample :
    remove_by_voice "5" 3 true = RemoveAction.noop ∧
    remove_by_voice "0" 3 true = RemoveAction.noop ∧
    RemoveAction.noop ≠ RemoveAction.removeCurrent := by
  refine ⟨by decide, by decide, by decide⟩

/-- C6 (amended): only a parameter that fails to parse as an integer
falls back to silently removing the current entry; a parameter that
parses to an out-of-range index (including 0 and negatives) is a silent
no-op; no case raises an error. -/
theorem C6_fallback_split (param : String) (count : ℕ) (h : param ≠ "all") :
    (parseIntStr param.toList = none →
      remove_by_voice param count true = RemoveAction.removeCurrent) ∧
    (∀ n : ℤ, parseIntStr param.toList = some n →
      ¬(0 ≤ n - 1 ∧ n - 1 < (count : ℤ)) →
      remove_by_voice param count true = RemoveAction.noop) := by
  constructor
  · intro hp
    simp only [remove_by_voice, if_neg h, hp, if_pos]
  · intro n hp hrange
    simp only [remove_by_voice, if_neg h, hp]
    rw [removeIndexAction, if_neg hrange]

/-- C6 (witness): the unparsable parameter "x" falls back to removing the
current entry. -/
theorem C6_fallback_split_witness :
    "x" ≠ "all" ∧ parseIntStr "x".toList = none ∧
    remove_by_voice "x" 3 true = RemoveAction.removeCurrent :=
  ⟨by decide, by decide, (C6_fallback_split "x" 3 (by decide)).1 (by decide)⟩

/-- C7 (counterexample): "how" contains a height keyword (the single
letter "h") and no extractable number, yet the interpreter sets
`pendingAxis = Width`, not Height, because "how" also contains the width
keyword "w" and the width set is tested first. -/
theorem C7_pending_counterexample :
    anyKw height_keywords "how" = true ∧
    extractValue "how" = none ∧
    interpret "how" none = (Command.nop, some Axis.width) ∧
    some Axis.width ≠ some Axis.height := by
  refine ⟨by decide, by decide, by decide, by decide⟩

/-- C7 (amended): for every utterance containing a height keyword but no
width keyword and no extractable number, `interpret` emits no command and
sets `pendingAxis = Height`; a subsequent utterance matching no keyword
set from which a value is extracted then emits `SetDimension(Height,
value)` and clears the pending axis. -/
theorem C7_pending_height (t1 t2 : String) (p : Option Axis) (v : ℚ)
    (h1w : anyKw width_keywords t1 = false)
    (h1h : anyKw height_keywords t1 = true)
    (h1v : extractValue t1 = none)
    (h2c : classify t2 = Intent.noneI)
    (h2v : extractValue t2 = some v) :
    interpret t1 p = (Command.nop, some Axis.height) ∧
    interpret t2 (some Axis.height) = (Command.setDimension Axis.height v, none) := by
  have hc1 : classify t1 = Intent.heightI := by
    rw [classify, h1w, h1h]
    rfl
  constructor
  · simp only [interpret, hc1, h1v]
  · simp only [interpret, h2c, h2v]

/-- C7 (witness): "height" asks for the height axis with no number, and
the bare-number follow-up "25" completes it. -/
theorem C7_pending_height_witness :
    anyKw width_keywords "height" = false ∧
    anyKw height_keywords "height" = true ∧
    extractValue "height" = none ∧
    classify "25" = Intent.noneI ∧
    extractValue "25" = some 25 ∧
    (interpret "height" none = (Command.nop, some Axis.height) ∧
      interpret "25" (some Axis.height) = (Command.setDimension Axis.height 25, none)) :=
  ⟨by decide, by decide, by decide, by decide, by decide,
    C7_pending_height "height" "25" none 25 (by decide) (by decide) (by decide)
      (by decide) (by decide)⟩

/-- Spec-side (C8): the extraction as the claim words it — the first
decimal literal scanning left to right, else the number-word sum taken
unconditionally as the value. -/
def claimedExtract (t : String) : Option ℚ :=
  match firstDecimal t.toList with
  | some v => some v
  | none => some ((wordSum t : ℚ))

/-- C8 (counterexample): on "zero" there is no decimal literal and the
recognized number-word "zero" sums to 0, but the code extracts no value
at all (`words_to_number` gates on a positive sum) — not the sum 0 the
claim prescribes. -/
theorem C8_extract_counterexample :
    firstDecimal "zero".toList = none ∧
    wordSum "zero" = 0 ∧
    claimedExtract "zero" = some 0 ∧
    extractValue "zero" = none ∧
    extractValue "zero" ≠ claimedExtract "zero" := by
  refine ⟨by decide, by decide, by decide, by decide, by decide⟩

/-- C8 (amended): the extracted value is the first decimal literal found
scanning left to right; when none is present it is the sum of the values
of all recognized number-words anywhere in the text — a summation, not
first match — provided that sum is positive, and no value otherwise. -/
theorem C8_extract_rule (t : String) :
    (∀ v, firstDecimal t.toList = some v → extractValue t = some v) ∧
    (firstDecimal t.toList = none →
      extractValue t =
        if 0 < wordSum t then some ((wordSum t : ℚ)) else none) := by
  constructor
  · intro v hv
    simp only [extractValue, hv]
  · intro hn
    simp only [extractValue, hn, words_to_number]
    by_cases h : 0 < wordSum t <;> simp [h]

/-- C8 (witness): "twenty five" has no decimal literal and two recognized
number-words summing to 25, which is the extracted value. -/
theorem C8_extract_rule_witness :
    firstDecimal "twenty five".toList = none ∧
    0 < wordSum "twenty five" ∧
    extractValue "twenty five" = some ((wordSum "twenty five" : ℚ)) := by
  refine ⟨by decide, by decide, ?_⟩
  rw [(C8_extract_rule "twenty five").2 (by decide), if_pos (by decide)]

/-- C9 (confirmed): on a nonempty batch, a false output-directory check
aborts with nothing processed; otherwise the run never aborts — the
outputs are exactly the loadable entries in order (a failing entry is
skipped), and a progress update occurs exactly at each loadable entry,
with value `(i + 1) * 100 / total` where `i` is the entry's batch
position and the denominator `total` is fixed at the batch-start entry
count; a failed entry contributes no update. -/
theorem C9_batch_best_effort (entries : List BatchEntry) (hne : entries ≠ []) :
    process false entries = none ∧
    process true entries =
      some ((entries.filter (fun e => e.loadable)).map
              (fun e => (e.name, e.widthCm, e.heightCm)),
            ((List.enumFrom 0 entries).filter (fun q => q.2.loadable)).map
              (fun q => (q.1 + 1) * 100 / entries.length)) := by
  have hne' : entries.isEmpty = false := by
    simpa [List.isEmpty_iff] using hne
  constructor
  · simp [process, hne']
  · simp [process, hne', processAux_eq]

/-- C9 (witness): a two-entry batch whose first entry loads and whose
second fails: the failing entry is skipped, the single progress update is
`1 * 100 / 2 = 50`, and the false-directory run aborts. -/
theorem C9_batch_best_effort_witness :
    ([⟨"a", 10, 15, true⟩, ⟨"b", 1, 1, false⟩] : List BatchEntry) ≠ [] ∧
    process false [⟨"a", 10, 15, true⟩, ⟨"b", 1, 1, false⟩] = none ∧
    process true [⟨"a", 10, 15, true⟩, ⟨"b", 1, 1, false⟩] =
      some ([("a", 10, 15)], [50]) := by
  refine ⟨by decide, (C9_batch_best_effort _ (by decide)).1, ?_⟩
  rw [(C9_batch_best_effort [⟨"a", 10, 15, true⟩, ⟨"b", 1, 1, false⟩] (by decide)).2]
  decide

/-- C10 (confirmed): any utterance containing the character `w` anywhere
is classified as width intent — it emits `SetDimension(Width, value)`
when a value is extracted and otherwise sets `pendingAxis = Width` —
regardless of any other keywords present. -/
theorem C10_w_substring (t : String) (p : Option Axis) (hw : 'w' ∈ t.toList) :
    interpret t p =
      (match extractValue t with
        | some v => (Command.setDimension Axis.width v, none)
        | none => (Command.nop, some Axis.width)) := by
  simp only [interpret, classify_width_of_w t hw]

/-- C10 (witness): the bare number-word "twenty" contains `w`, so instead
of completing a pending axis it is interpreted as
`SetDimension(Width, 20)`. -/
theorem C10_w_substring_witness :
    'w' ∈ "twenty".toList ∧
    interpret "twenty" (some Axis.height) = (Command.setDimension Axis.width 20, none) := by
  refine ⟨by decide, ?_⟩
  rw [C10_w_substring "twenty" (some Axis.height) (by decide)]
  decide
